import Mathlib

/-!
# Verification of the Simulation Phase Controller

A shallow embedding of the event-driven simulation phase controller used
by `se_custom_binary_periodic.py` (a gem5 SE configuration script), and
of the assembly script itself.

The script under `src/` assembles the system: it builds a
`PeriodicROIManager`, wraps it in an `EventCoordinator`, hands the
coordinator's exit-event handler table to the `Simulator` at
construction, registers the coordinator, prints the configuration and
runs the simulation.  The phase-manager and coordinator implementations
(`util.event_managers`) are part of the repository but are not present
under `src/`; their behaviour is modelled here from the design
specification (spec.md sections 3, 4 and 7).  The assembly script's own
behaviour (statement order, post-run reporting) is embedded directly
from the source.
-/

/-- Modelled from the spec: the phase tag of `PhaseState` (spec section 3) for
the periodic fast-forward / warm-up / region-of-interest strategy; the
implementation in `util.event_managers.roi.periodic` is not under `src/`. -/
inductive Phase where
  | InitialFastForward
  | FastForward
  | Warmup
  | ROI
  | Done
deriving DecidableEq, Repr

/-- Modelled from the spec: the execution-model identifier requested of the
kernel (fast vs. detailed; spec section 3, `PhaseState`). -/
inductive ModelId where
  | fast
  | detailed
deriving DecidableEq, Repr

/-- Modelled from the spec: the error taxonomy of spec section 7 —
`ConfigurationError` at construction, `CoordinationError` for dispatch or
terminal-state contract violations. -/
inductive CtrlError where
  | configurationError
  | coordinationError
deriving DecidableEq, Repr

/-- Modelled from the spec: `PhaseConfig` (spec section 3) — the static
configuration of a Phase Manager.  Intervals are instruction counts that
must be strictly positive; invalid (zero or negative) values are
representable so construction-time rejection can be stated.  `maxROIs = 0`
means unbounded. -/
structure PhaseConfig where
  initFF : Int
  ff : Int
  warmup : Int
  roi : Int
  maxROIs : Nat
  continueSim : Bool
deriving DecidableEq, Repr

/-- Modelled from the spec: `HandlerResult` (spec section 4.1) — the value
returned by `handle`: a stop decision, an optional next execution model
and an optional next trigger interval. -/
structure HandlerResult where
  stop : Bool
  nextExecutionModel : Option ModelId
  nextTriggerInstructionCount : Option Int
deriving DecidableEq, Repr

/-- Modelled from the spec: the mutable run-time state of a Phase Manager
(`PhaseState`, spec section 3), extended with the cumulative instruction
count at which the manager's next scheduled trigger fires, so that the
scenario of spec section 8 (cumulative counts 1000, 1200, ...) can be
stated. -/
structure MState where
  phase : Phase
  regions : Nat
  model : ModelId
  nextTriggerAt : Int
deriving DecidableEq, Repr

/-- Modelled from the spec: the initial state of a fresh Phase Manager
(spec section 4.1): `InitialFastForward`, no regions completed, execution
model fast, trigger set at the configured initial fast-forward interval. -/
def initState (c : PhaseConfig) : MState :=
  { phase := .InitialFastForward
    regions := 0
    model := .fast
    nextTriggerAt := c.initFF }

/-- Modelled from the spec: Phase Manager construction (spec sections 4.1 and
7): any configured interval of zero or negative is rejected with a
`ConfigurationError` at construction; a valid configuration yields the
initial state. -/
def mkManager (c : PhaseConfig) : Except CtrlError MState :=
  if 0 < c.initFF ∧ 0 < c.ff ∧ 0 < c.warmup ∧ 0 < c.roi then
    .ok (initState c)
  else
    .error .configurationError

/-- Modelled from the spec: one `handle` invocation of the periodic Phase
Manager state machine (spec section 4.1), driven by its own declared
trigger.  Advances `PhaseState` exactly one transition and returns the
`HandlerResult`; invoking `handle` on a manager already in `Done` is a
fatal `CoordinationError` (spec sections 4.1 and 7). -/
def step (c : PhaseConfig) (s : MState) :
    Except CtrlError (MState × HandlerResult) :=
  match s.phase with
  | .InitialFastForward =>
      .ok ({ s with
              phase := .Warmup
              model := .detailed
              nextTriggerAt := s.nextTriggerAt + c.warmup },
           ⟨false, some .detailed, some c.warmup⟩)
  | .FastForward =>
      .ok ({ s with
              phase := .Warmup
              model := .detailed
              nextTriggerAt := s.nextTriggerAt + c.warmup },
           ⟨false, some .detailed, some c.warmup⟩)
  | .Warmup =>
      .ok ({ s with
              phase := .ROI
              nextTriggerAt := s.nextTriggerAt + c.roi },
           ⟨false, none, some c.roi⟩)
  | .ROI =>
      if c.maxROIs ≠ 0 ∧ c.maxROIs ≤ s.regions + 1 ∧ c.continueSim = false then
        .ok ({ s with
                phase := .Done
                regions := s.regions + 1 },
             ⟨true, none, none⟩)
      else
        .ok ({ s with
                phase := .FastForward
                regions := s.regions + 1
                model := .fast
                nextTriggerAt := s.nextTriggerAt + c.ff },
             ⟨false, some .fast, some c.ff⟩)
  | .Done => .error .coordinationError

instance {ε α : Type} [DecidableEq ε] [DecidableEq α] :
    DecidableEq (Except ε α) := fun a b =>
  match a, b with
  | .ok x, .ok y => decidable_of_iff (x = y) (by simp)
  | .error x, .error y => decidable_of_iff (x = y) (by simp)
  | .ok _, .error _ => isFalse (by simp)
  | .error _, .ok _ => isFalse (by simp)

/-- The manager state after `n` `handle` calls on a fresh manager, driving
the state machine through its own declared trigger each time. -/
def iter (c : PhaseConfig) : Nat → Except CtrlError MState
  | 0 => .ok (initState c)
  | n + 1 =>
      match iter c n with
      | .error e => .error e
      | .ok s => (step c s).map Prod.fst

/-- The full outcome (new state and `HandlerResult`) of the `(n+1)`-th
`handle` call on a fresh manager. -/
def stepResult (c : PhaseConfig) (n : Nat) :
    Except CtrlError (MState × HandlerResult) :=
  match iter c n with
  | .error e => .error e
  | .ok s => step c s

/-- The phase reached by the `(n+1)`-th `handle` call, when it succeeds. -/
def phaseOf (e : Except CtrlError (MState × HandlerResult)) : Option Phase :=
  e.toOption.map (fun p => p.1.phase)

/-- The `stop` decision of the `(n+1)`-th `handle` call, when it succeeds. -/
def stopOf (e : Except CtrlError (MState × HandlerResult)) : Option Bool :=
  e.toOption.map (fun p => p.2.stop)

/-- The regions-completed count after a `handle` call, when it succeeds. -/
def regionsOf (e : Except CtrlError (MState × HandlerResult)) : Option Nat :=
  e.toOption.map (fun p => p.1.regions)

/-- The phase visited by the `(n+1)`-th `handle` call of the steady cycle:
Warmup, ROI, FastForward, repeating with period three. -/
def cyclePhase (n : Nat) : Phase :=
  if n = 0 then .Warmup else if n = 1 then .ROI else .FastForward

/-- The execution model requested along the steady cycle: detailed during
Warmup and ROI, fast during FastForward. -/
def cycleModel (n : Nat) : ModelId :=
  if n = 2 then .fast else .detailed

/-- The cumulative instruction count at which the manager's next trigger
fires after `n` `handle` calls, when that state is reachable. -/
def trigAt (c : PhaseConfig) (n : Nat) : Option Int :=
  (iter c n).toOption.map (fun s => s.nextTriggerAt)

/-- Of two optional values supplied in registration order, the last
non-empty one (second wins when it supplied a value). -/
def pickLast {α : Type} (first second : Option α) : Option α :=
  match second with
  | some v => some v
  | none => first

/-- The last non-empty value of a list of optional values given in
registration order. -/
def lastProvided {α : Type} : List (Option α) → Option α
  | [] => none
  | x :: xs => pickLast x (lastProvided xs)

/-- Modelled from the spec: the Event Coordinator's composition rule for
several handlers registered on the same cause (spec section 4.2): `stop`
is true if any handler says stop; model and trigger are taken from the
last handler that supplied a non-empty value. -/
def combineResults (rs : List HandlerResult) : HandlerResult where
  stop := rs.any (fun r => r.stop)
  nextExecutionModel := lastProvided (rs.map (fun r => r.nextExecutionModel))
  nextTriggerInstructionCount :=
    lastProvided (rs.map (fun r => r.nextTriggerInstructionCount))

/-- Modelled from the spec: dispatch of one exit cause to every handler
registered for it, in registration order (spec sections 3 and 4.2):
each handler runs to completion on the state the previous one left,
and the results are composed with `combineResults`. -/
def runHandlers {σ : Type} (hs : List (σ → σ × HandlerResult)) (s : σ) :
    σ × HandlerResult :=
  let out := hs.foldl
    (fun acc h =>
      let p := h acc.1
      (p.1, acc.2 ++ [p.2]))
    (s, ([] : List HandlerResult))
  (out.1, combineResults out.2)

/-- Modelled from the spec: the Coordinator's cumulative-progress
bookkeeping (spec section 4.2): a running carry plus, per manager, the
instructions attributed since that manager's own last reset. -/
structure CoordClock where
  carry : Nat
  clocks : List Nat
deriving DecidableEq, Repr

/-- Modelled from the spec: `globalTime().instructionCount` (spec section
4.2): the sum across managers of instructions since their own last reset,
plus the running carry. -/
def globalInstr (cc : CoordClock) : Nat := cc.carry + cc.clocks.sum

/-- Modelled from the spec: what a `handle` call can do to the
Coordinator's time bookkeeping — attribute `d` further retired
instructions to manager `i`, or reset manager `i`'s clock at a model
switch, folding it into the carry (spec section 4.2). -/
inductive ClockEvent where
  | advance (i : Nat) (d : Nat)
  | switch (i : Nat)
deriving DecidableEq, Repr

/-- Modelled from the spec: one bookkeeping update of the Coordinator's
global time view (spec section 4.2): instruction counts surveyed under
different execution models are never dropped or double-counted across a
switch boundary. -/
def stepClock (cc : CoordClock) : ClockEvent → CoordClock
  | .advance i d =>
      { cc with clocks := cc.clocks.set i (cc.clocks.getD i 0 + d) }
  | .switch i =>
      { carry := cc.carry + cc.clocks.getD i 0
        clocks := cc.clocks.set i 0 }

/-- The Coordinator's time bookkeeping after a sequence of `handle`-driven
updates. -/
def runClock (cc : CoordClock) (es : List ClockEvent) : CoordClock :=
  es.foldl stepClock cc

/-- Modelled from the spec: `SimulatedTime` (spec section 3) — an immutable
snapshot: a count of retired instructions and an optional kernel-native
tick count.  The instruction field is optional because the assembly
script guards it with `or 0` (src/se_custom_binary_periodic.py line 141). -/
structure SimulatedTime where
  instruction : Option Int
  tick : Option Int
deriving DecidableEq, Repr

/-- Modelled from the spec: the per-manager time bookkeeping behind
`currentTime()` — progress attributable to this manager since its own
last model switch (spec section 4.1). -/
structure ManagerClock where
  sinceReset : Nat
deriving DecidableEq, Repr

/-- Modelled from the spec: `currentTime()` as a state-passing operation
(spec sections 4.1 and 8): read-only, so it returns its snapshot and the
manager state unchanged. -/
def currentTimeOp (m : ManagerClock) : SimulatedTime × ManagerClock :=
  (⟨some (m.sinceReset : Int), none⟩, m)

/-- Modelled from the spec: the static-configuration read accessors (spec
section 6) as one state-passing operation: they report the `PhaseConfig`
fields and leave the run-time state unchanged. -/
def configAccessorOp (c : PhaseConfig) (s : MState) :
    (Int × Int × Int × Int × Nat × Bool) × MState :=
  ((c.initFF, c.ff, c.warmup, c.roi, c.maxROIs, c.continueSim), s)

/-- Embedded from src/se_custom_binary_periodic.py line 141:
`elapsed_instructions = coordinator.get_current_time().instruction or 0`.
Python's `or` yields the right operand when the left is falsy (`None` or
`0`), and the left operand otherwise. -/
def elapsedInstructions (t : SimulatedTime) : Int :=
  match t.instruction with
  | none => 0
  | some n => if n = 0 then 0 else n

/-- The externally relevant actions of the assembly script, in the order
its statements can perform them. -/
inductive ScriptAction where
  | parseArgs
  | buildSystem
  | getEventHandlers
  | constructSimulator
  | registerCoordinator
  | printConfig
  | simulatorRun
  | reportResults
deriving DecidableEq, Repr

/-- Embedded from src/se_custom_binary_periodic.py: the script's top-level
statement order.  Line 28 parses arguments; lines 31-62 build processor,
caches, memory, board and workload; lines 65-68 construct the `Simulator`,
whose `on_exit_event` argument `coordinator.get_event_handlers()` is
evaluated (once) before the constructor runs; line 69 calls
`coordinator.register(simulator)`; lines 72-133 print the configuration;
line 138 calls `simulator.run()`; lines 140-164 report results. -/
def scriptTrace : List ScriptAction :=
  [.parseArgs, .buildSystem, .getEventHandlers, .constructSimulator,
   .registerCoordinator, .printConfig, .simulatorRun, .reportResults]

/-- The scenario configuration of spec section 8: initFF=1000, ff=500,
warmup=200, roi=300, maxROIs=2, continue=false. -/
def scenarioConfig : PhaseConfig := ⟨1000, 500, 200, 300, 2, false⟩

/-- A bounded configuration with a single region of interest and
continuation disabled, used to instantiate general theorems. -/
def cfgOne : PhaseConfig := ⟨10, 5, 2, 3, 1, false⟩

/-- An unbounded configuration with continuation enabled, used to
instantiate general theorems. -/
def cfgFree : PhaseConfig := ⟨10, 5, 2, 3, 0, true⟩

/-- A configuration with a zero warm-up interval, used to instantiate the
construction-time rejection theorem. -/
def cfgBad : PhaseConfig := ⟨1000, 500, 0, 300, 0, false⟩

/-- A concrete handler requesting stop=false, model=fast, used to
instantiate the coordinator tie-break theorem. -/
def handlerA : Nat → Nat × HandlerResult :=
  fun n => (n + 1, ⟨false, some .fast, none⟩)

/-- A concrete handler requesting stop=true, model=detailed, used to
instantiate the coordinator tie-break theorem. -/
def handlerB : Nat → Nat × HandlerResult :=
  fun n => (n + 2, ⟨true, some .detailed, some 7⟩)

/-! ## Helper lemmas -/

theorem iter_succ (c : PhaseConfig) (n : Nat) :
    iter c (n + 1) = (stepResult c n).map Prod.fst := by
  cases h : iter c n <;> simp [iter, stepResult, h, Except.map]

theorem sum_set_add (l : List Nat) (i d : Nat) :
    l.sum ≤ (l.set i (l.getD i 0 + d)).sum := by
  induction l generalizing i with
  | nil => simp
  | cons a t ih =>
      cases i with
      | zero =>
          show a + t.sum ≤ (a + d) + t.sum
          omega
      | succ j =>
          show a + t.sum ≤ a + (t.set j (t.getD j 0 + d)).sum
          have h := ih j
          omega

theorem sum_set_zero (l : List Nat) (i : Nat) :
    (l.set i 0).sum + l.getD i 0 = l.sum := by
  induction l generalizing i with
  | nil => simp
  | cons a t ih =>
      cases i with
      | zero =>
          show (0 + t.sum) + a = a + t.sum
          omega
      | succ j =>
          show (a + (t.set j 0).sum) + t.getD j 0 = a + t.sum
          have h := ih j
          omega

theorem stepClock_mono (cc : CoordClock) (e : ClockEvent) :
    globalInstr cc ≤ globalInstr (stepClock cc e) := by
  cases e with
  | advance i d =>
      have := sum_set_add cc.clocks i d
      simp only [globalInstr, stepClock]
      omega
  | switch i =>
      have := sum_set_zero cc.clocks i
      simp only [globalInstr, stepClock]
      omega

theorem runClock_mono (cc : CoordClock) (es : List ClockEvent) :
    globalInstr cc ≤ globalInstr (runClock cc es) := by
  induction es generalizing cc with
  | nil => simp [runClock]
  | cons e t ih =>
      calc globalInstr cc ≤ globalInstr (stepClock cc e) :=
            stepClock_mono cc e
        _ ≤ globalInstr (runClock (stepClock cc e) t) := ih _
        _ = globalInstr (runClock cc (e :: t)) := by simp [runClock]

theorem cycleRun (c : PhaseConfig) :
    ∀ n : Nat,
      (∀ j : Nat, 3 * j + 2 ≤ n →
        c.maxROIs = 0 ∨ c.continueSim = true ∨ j + 1 < c.maxROIs) →
      ∃ s r, stepResult c n = .ok (s, r) ∧ iter c (n + 1) = .ok s ∧
        r.stop = false ∧
        s.phase = cyclePhase (n % 3) ∧
        s.regions = (n + 1) / 3 ∧
        s.model = cycleModel (n % 3) := by
  intro n
  induction n with
  | zero =>
      intro _
      exact ⟨⟨.Warmup, 0, .detailed, c.initFF + c.warmup⟩,
        ⟨false, some .detailed, some c.warmup⟩, rfl, rfl, rfl, rfl, rfl, rfl⟩
  | succ n ih =>
      intro H
      obtain ⟨s, r, hsr, hiter, hstop, hphase, hreg, hmod⟩ :=
        ih (fun j hj => H j (Nat.le_succ_of_le hj))
      obtain ⟨ph, reg, mo, nta⟩ := s
      replace hphase : ph = cyclePhase (n % 3) := hphase
      replace hreg : reg = (n + 1) / 3 := hreg
      replace hmod : mo = cycleModel (n % 3) := hmod
      have h3 : n % 3 = 0 ∨ n % 3 = 1 ∨ n % 3 = 2 := by omega
      rcases h3 with h3 | h3 | h3
      · -- the state after n+1 calls is Warmup; the next call enters ROI
        rw [h3] at hphase
        replace hphase : ph = Phase.Warmup := hphase
        subst hphase
        have hsr2 : stepResult c (n + 1) =
            .ok (⟨.ROI, reg, mo, nta + c.roi⟩, ⟨false, none, some c.roi⟩) := by
          unfold stepResult
          rw [hiter]
          rfl
        have hit2 : iter c (n + 1 + 1) = .ok ⟨.ROI, reg, mo, nta + c.roi⟩ := by
          rw [iter_succ, hsr2]
          rfl
        refine ⟨_, _, hsr2, hit2, rfl, ?_, ?_, ?_⟩
        · show Phase.ROI = cyclePhase ((n + 1) % 3)
          have h1 : (n + 1) % 3 = 1 := by omega
          rw [h1]
          decide
        · show reg = (n + 1 + 1) / 3
          omega
        · show mo = cycleModel ((n + 1) % 3)
          have h1 : (n + 1) % 3 = 1 := by omega
          rw [h1, hmod, h3]
          decide
      · -- the state after n+1 calls is ROI; the next call completes a region
        rw [h3] at hphase
        replace hphase : ph = Phase.ROI := hphase
        subst hphase
        have hj := H (n / 3) (by omega)
        have hcond :
            ¬(c.maxROIs ≠ 0 ∧ c.maxROIs ≤ reg + 1 ∧ c.continueSim = false) := by
          rcases hj with h | h | h
          · intro hc
            exact hc.1 h
          · intro hc
            rw [hc.2.2] at h
            exact Bool.noConfusion h
          · intro hc
            have h2 := hc.2.1
            omega
        have hstep : step c ⟨.ROI, reg, mo, nta⟩ =
            .ok (⟨.FastForward, reg + 1, .fast, nta + c.ff⟩,
                 ⟨false, some .fast, some c.ff⟩) := by
          simp only [step]
          rw [if_neg hcond]
        have hsr2 : stepResult c (n + 1) =
            .ok (⟨.FastForward, reg + 1, .fast, nta + c.ff⟩,
                 ⟨false, some .fast, some c.ff⟩) := by
          unfold stepResult
          rw [hiter]
          exact hstep
        have hit2 : iter c (n + 1 + 1) =
            .ok ⟨.FastForward, reg + 1, .fast, nta + c.ff⟩ := by
          rw [iter_succ, hsr2]
          rfl
        refine ⟨_, _, hsr2, hit2, rfl, ?_, ?_, ?_⟩
        · show Phase.FastForward = cyclePhase ((n + 1) % 3)
          have h2 : (n + 1) % 3 = 2 := by omega
          rw [h2]
          rfl
        · show reg + 1 = (n + 1 + 1) / 3
          omega
        · show ModelId.fast = cycleModel ((n + 1) % 3)
          have h2 : (n + 1) % 3 = 2 := by omega
          rw [h2]
          decide
      · -- the state after n+1 calls is FastForward; the next call warms up
        rw [h3] at hphase
        replace hphase : ph = Phase.FastForward := hphase
        subst hphase
        have hsr2 : stepResult c (n + 1) =
            .ok (⟨.Warmup, reg, .detailed, nta + c.warmup⟩,
                 ⟨false, some .detailed, some c.warmup⟩) := by
          unfold stepResult
          rw [hiter]
          rfl
        have hit2 : iter c (n + 1 + 1) =
            .ok ⟨.Warmup, reg, .detailed, nta + c.warmup⟩ := by
          rw [iter_succ, hsr2]
          rfl
        refine ⟨_, _, hsr2, hit2, rfl, ?_, ?_, ?_⟩
        · show Phase.Warmup = cyclePhase ((n + 1) % 3)
          have h0 : (n + 1) % 3 = 0 := by omega
          rw [h0]
          decide
        · show reg = (n + 1 + 1) / 3
          omega
        · show ModelId.detailed = cycleModel ((n + 1) % 3)
          have h0 : (n + 1) % 3 = 0 := by omega
          rw [h0]
          decide

/-! ## Claims -/

/-- C1: With maximum regions k (k > 0) and continuation disabled, the k-th
ROI-exit `handle` call (call number 3k, index 3k-1) transitions the
manager to Done with regions = k and returns stop = true, and no earlier
call returns stop = true; with the same k and continuation enabled, every
call keeps the FastForward/Warmup/ROI cycle going and never returns
stop = true. -/
theorem C1_boundedness (c : PhaseConfig) (k : Nat)
    (hk : c.maxROIs = k) (hpos : 0 < k) :
    (c.continueSim = false →
      phaseOf (stepResult c (3 * k - 1)) = some .Done ∧
      regionsOf (stepResult c (3 * k - 1)) = some k ∧
      stopOf (stepResult c (3 * k - 1)) = some true ∧
      (∀ n : Nat, n + 1 < 3 * k → stopOf (stepResult c n) = some false)) ∧
    (c.continueSim = true →
      ∀ n : Nat, stopOf (stepResult c n) = some false ∧
        phaseOf (stepResult c n) = some (cyclePhase (n % 3))) := by
  constructor
  · intro hcont
    obtain ⟨s, r, hsr, hiter, hstop, hphase, hreg, hmod⟩ :=
      cycleRun c (3 * k - 2) (fun j hj => by right; right; omega)
    have hiter' : iter c (3 * k - 1) = .ok s := by
      have he : 3 * k - 2 + 1 = 3 * k - 1 := by omega
      rw [← he]
      exact hiter
    obtain ⟨ph, reg, mo, nta⟩ := s
    replace hphase : ph = cyclePhase ((3 * k - 2) % 3) := hphase
    have hmod3 : (3 * k - 2) % 3 = 1 := by omega
    rw [hmod3] at hphase
    replace hphase : ph = Phase.ROI := hphase
    subst hphase
    replace hreg : reg = (3 * k - 2 + 1) / 3 := hreg
    have hregk : reg = k - 1 := by omega
    have hcondT : c.maxROIs ≠ 0 ∧ c.maxROIs ≤ reg + 1 ∧ c.continueSim = false :=
      ⟨by omega, by omega, hcont⟩
    have hstep : step c ⟨.ROI, reg, mo, nta⟩ =
        .ok (⟨.Done, reg + 1, mo, nta⟩, ⟨true, none, none⟩) := by
      simp only [step]
      rw [if_pos hcondT]
    have hsr2 : stepResult c (3 * k - 1) =
        .ok (⟨.Done, reg + 1, mo, nta⟩, ⟨true, none, none⟩) := by
      unfold stepResult
      rw [hiter']
      exact hstep
    refine ⟨?_, ?_, ?_, ?_⟩
    · simp [phaseOf, hsr2, Except.toOption]
    · rw [regionsOf, hsr2]
      show some (reg + 1) = some k
      exact congrArg some (by omega)
    · simp [stopOf, hsr2, Except.toOption]
    · intro n hn
      obtain ⟨s', r', hsr', _, hstop', _, _, _⟩ :=
        cycleRun c n (fun j hj => by right; right; omega)
      simp [stopOf, hsr', hstop', Except.toOption]
  · intro hcont n
    obtain ⟨s', r', hsr', _, hstop', hphase', _, _⟩ :=
      cycleRun c n (fun j _ => Or.inr (Or.inl hcont))
    constructor
    · simp [stopOf, hsr', hstop', Except.toOption]
    · simp [phaseOf, hsr', hphase', Except.toOption]

theorem C1_boundedness_witness :
    phaseOf (stepResult cfgOne 2) = some Phase.Done ∧
    regionsOf (stepResult cfgOne 2) = some 1 ∧
    stopOf (stepResult cfgOne 2) = some true :=
  ⟨((C1_boundedness cfgOne 1 rfl (by decide)).1 rfl).1,
   ((C1_boundedness cfgOne 1 rfl (by decide)).1 rfl).2.1,
   ((C1_boundedness cfgOne 1 rfl (by decide)).1 rfl).2.2.1⟩

/-- C2: With continuation enabled and no maximum-regions bound, a fresh
Phase Manager starts in InitialFastForward with its first trigger at the
configured initial fast-forward interval, and repeated `handle` calls on
its declared trigger visit phases in exactly the order InitialFastForward,
Warmup, ROI, then the cycle FastForward, Warmup, ROI repeating forever;
InitialFastForward is never re-entered after the first transition. -/
theorem C2_cycle_forever (c : PhaseConfig)
    (hcont : c.continueSim = true) (hmax : c.maxROIs = 0) :
    iter c 0 = .ok (initState c) ∧
    (initState c).phase = .InitialFastForward ∧
    (initState c).nextTriggerAt = c.initFF ∧
    (∀ n : Nat, phaseOf (stepResult c n) = some (cyclePhase (n % 3))) ∧
    (∀ n : Nat, phaseOf (stepResult c n) ≠ some .InitialFastForward) := by
  have hcyc : ∀ n : Nat, phaseOf (stepResult c n) = some (cyclePhase (n % 3)) := by
    intro n
    obtain ⟨s, r, hsr, _, _, hphase, _, _⟩ :=
      cycleRun c n (fun j _ => Or.inr (Or.inl hcont))
    simp [phaseOf, hsr, hphase, Except.toOption]
  refine ⟨rfl, rfl, rfl, hcyc, ?_⟩
  intro n heq
  rw [hcyc n] at heq
  have h3 : n % 3 = 0 ∨ n % 3 = 1 ∨ n % 3 = 2 := by omega
  rcases h3 with h | h | h <;> rw [h] at heq <;> simp [cyclePhase] at heq

theorem C2_cycle_forever_witness :
    phaseOf (stepResult cfgFree 4) = some (cyclePhase (4 % 3)) :=
  (C2_cycle_forever cfgFree rfl rfl).2.2.2.1 4

/-- C3: For the configuration initFF=1000, ff=500, warmup=200, roi=300,
maxROIs=2, continue=false, driving the manager through its triggers
produces exactly: trigger at cumulative count 1000 transitions to
Warmup, 1200 to ROI, 1500 to FastForward with regions=1, 2000 to Warmup,
2200 to ROI, and 2500 to Done with regions=2 and stop=true. -/
theorem C3_scenario_trace :
    trigAt scenarioConfig 0 = some 1000 ∧
    phaseOf (stepResult scenarioConfig 0) = some .Warmup ∧
    trigAt scenarioConfig 1 = some 1200 ∧
    phaseOf (stepResult scenarioConfig 1) = some .ROI ∧
    trigAt scenarioConfig 2 = some 1500 ∧
    phaseOf (stepResult scenarioConfig 2) = some .FastForward ∧
    regionsOf (stepResult scenarioConfig 2) = some 1 ∧
    trigAt scenarioConfig 3 = some 2000 ∧
    phaseOf (stepResult scenarioConfig 3) = some .Warmup ∧
    trigAt scenarioConfig 4 = some 2200 ∧
    phaseOf (stepResult scenarioConfig 4) = some .ROI ∧
    trigAt scenarioConfig 5 = some 2500 ∧
    phaseOf (stepResult scenarioConfig 5) = some .Done ∧
    regionsOf (stepResult scenarioConfig 5) = some 2 ∧
    stopOf (stepResult scenarioConfig 5) = some true := by
  decide

/-- C4: When two handlers are registered for the same cause, they run in
registration order (the second on the state the first left) and the
composed result has stop = true if any handler said stop, while model and
trigger come from the last handler that supplied a non-empty value; in
particular stop=false/model=fast composed with a later stop=true/
model=detailed yields stop=true, model=detailed. -/
theorem C4_coordinator_tiebreak (σ : Type)
    (f g : σ → σ × HandlerResult) (s : σ) :
    runHandlers [f, g] s =
      ((g (f s).1).1, combineResults [(f s).2, (g (f s).1).2]) ∧
    (combineResults [(f s).2, (g (f s).1).2]).stop
      = ((f s).2.stop || (g (f s).1).2.stop) ∧
    (combineResults [(f s).2, (g (f s).1).2]).nextExecutionModel
      = pickLast (f s).2.nextExecutionModel (g (f s).1).2.nextExecutionModel ∧
    (combineResults [(f s).2, (g (f s).1).2]).nextTriggerInstructionCount
      = pickLast (f s).2.nextTriggerInstructionCount
          (g (f s).1).2.nextTriggerInstructionCount ∧
    ((f s).2.stop = false → (f s).2.nextExecutionModel = some .fast →
      (g (f s).1).2.stop = true →
      (g (f s).1).2.nextExecutionModel = some .detailed →
      (runHandlers [f, g] s).2.stop = true ∧
      (runHandlers [f, g] s).2.nextExecutionModel = some .detailed) := by
  refine ⟨rfl, ?_, rfl, rfl, ?_⟩
  · simp [combineResults]
  · intro h1 h2 h3 h4
    constructor
    · show (combineResults [(f s).2, (g (f s).1).2]).stop = true
      simp [combineResults, h3]
    · show (combineResults [(f s).2, (g (f s).1).2]).nextExecutionModel
        = some .detailed
      simp [combineResults, lastProvided, pickLast, h4]

theorem C4_coordinator_tiebreak_witness :
    (runHandlers [handlerA, handlerB] 0).2.stop = true ∧
    (runHandlers [handlerA, handlerB] 0).2.nextExecutionModel
      = some ModelId.detailed :=
  (C4_coordinator_tiebreak Nat handlerA handlerB 0).2.2.2.2 rfl rfl rfl rfl

/-- C5: The Coordinator's global instruction count is non-decreasing across
every sequence of `handle`-driven bookkeeping updates, including across
model-switch boundaries: a later query of the global time view never
reports fewer instructions than an earlier one. -/
theorem C5_globalTime_monotone (cc : CoordClock) (es more : List ClockEvent) :
    globalInstr (runClock cc es) ≤ globalInstr (runClock cc (es ++ more)) := by
  have h : runClock cc (es ++ more) = runClock (runClock cc es) more := by
    simp [runClock, List.foldl_append]
  rw [h]
  exact runClock_mono _ more

/-- C6: Construction rejects any zero-or-negative interval with a
ConfigurationError, before any `handle` call is possible, and `handle`
never raises a ConfigurationError at run time (its only error is the
CoordinationError of the terminal state). -/
theorem C6_construction_rejects (c : PhaseConfig) :
    (mkManager c = .error .configurationError ↔
      (c.initFF ≤ 0 ∨ c.ff ≤ 0 ∨ c.warmup ≤ 0 ∨ c.roi ≤ 0)) ∧
    (∀ (s : MState) (e : CtrlError),
      step c s = .error e → e = .coordinationError) := by
  constructor
  · unfold mkManager
    split
    · rename_i h
      constructor
      · intro hcontr
        exact Except.noConfusion hcontr
      · intro hbad
        exfalso
        omega
    · rename_i h
      constructor
      · intro _
        omega
      · intro _
        rfl
  · intro s e h
    obtain ⟨ph, reg, mo, nta⟩ := s
    cases ph with
    | InitialFastForward => exact Except.noConfusion h
    | FastForward => exact Except.noConfusion h
    | Warmup => exact Except.noConfusion h
    | ROI =>
        simp only [step] at h
        split at h <;> exact Except.noConfusion h
    | Done =>
        simp only [step] at h
        injection h with h'
        exact h'.symm

theorem C6_construction_rejects_witness :
    mkManager cfgBad = .error .configurationError ∧
    CtrlError.coordinationError = CtrlError.coordinationError :=
  ⟨(C6_construction_rejects cfgBad).1.mpr (by decide),
   (C6_construction_rejects cfgBad).2 ⟨.Done, 0, .fast, 0⟩
     .coordinationError rfl⟩

/-- C7: Done is terminal: a `handle` call on a manager whose phase is Done
is exactly the fatal CoordinationError (no successor state, hence no
further transition), and no other phase produces that error. -/
theorem C7_done_terminal (c : PhaseConfig) (s : MState) :
    s.phase = .Done ↔ step c s = .error .coordinationError := by
  obtain ⟨ph, reg, mo, nta⟩ := s
  constructor
  · intro h
    replace h : ph = Phase.Done := h
    subst h
    rfl
  · intro h
    cases ph with
    | InitialFastForward => exact Except.noConfusion h
    | FastForward => exact Except.noConfusion h
    | Warmup => exact Except.noConfusion h
    | ROI =>
        exfalso
        simp only [step] at h
        split at h <;> exact Except.noConfusion h
    | Done => rfl

theorem C7_done_terminal_witness :
    step cfgOne ⟨.Done, 1, .detailed, 12⟩ = .error .coordinationError :=
  (C7_done_terminal cfgOne ⟨.Done, 1, .detailed, 12⟩).mp rfl

/-- C8: In the assembly script the handler table is obtained exactly once
and handed to the kernel at simulator construction (the action directly
preceding it), the coordinator is registered exactly once after that, and
both happen before `simulator.run()`. -/
theorem C8_setup_order :
    scriptTrace.count .getEventHandlers = 1 ∧
    scriptTrace.count .constructSimulator = 1 ∧
    scriptTrace.count .registerCoordinator = 1 ∧
    scriptTrace.count .simulatorRun = 1 ∧
    scriptTrace.indexOf .getEventHandlers + 1
      = scriptTrace.indexOf .constructSimulator ∧
    scriptTrace.indexOf .constructSimulator
      < scriptTrace.indexOf .registerCoordinator ∧
    scriptTrace.indexOf .registerCoordinator
      < scriptTrace.indexOf .simulatorRun := by
  decide

/-- C9: Read accessors are pure: `currentTime()` and the static
configuration accessors return identical values on two calls with no
intervening `handle`, and leave the manager state unchanged. -/
theorem C9_read_accessors_pure (m : ManagerClock) (c : PhaseConfig)
    (s : MState) :
    (currentTimeOp m).2 = m ∧
    (currentTimeOp ((currentTimeOp m).2)).1 = (currentTimeOp m).1 ∧
    (configAccessorOp c s).2 = s ∧
    (configAccessorOp c ((configAccessorOp c s).2)).1
      = (configAccessorOp c s).1 :=
  ⟨rfl, rfl, rfl, rfl⟩

/-- C10: Post-run reporting guards a missing instruction count: the
reported elapsed instructions equal the snapshot's instruction count when
that count is truthy, and 0 when the count is None or 0. -/
theorem C10_elapsed_fallback (n : Int) (tk tk2 tk3 : Option Int) :
    elapsedInstructions ⟨none, tk⟩ = 0 ∧
    elapsedInstructions ⟨some 0, tk2⟩ = 0 ∧
    (n ≠ 0 → elapsedInstructions ⟨some n, tk3⟩ = n) := by
  refine ⟨rfl, rfl, ?_⟩
  intro hn
  simp [elapsedInstructions, hn]

theorem C10_elapsed_fallback_witness :
    elapsedInstructions ⟨some 12345, none⟩ = 12345 :=
  (C10_elapsed_fallback 12345 none none none).2.2 (by decide)
